import Mathlib

/-!
Verification of the quiz-session state manager, scorer, durable storage and
offline retry queue of the AWS-Cloud-Practitioner quiz webapp.

The session manager (svelte store `createQuizStore`) keeps a `QuizState`
record together with an answer-history list, a snapshot list and a snapshot
cursor.  JavaScript `Map`s are embedded as association lists whose `set`
replaces in place and appends fresh keys at the end, exactly as a JS `Map`
iterates; JS `Set`s are embedded as insertion-ordered lists without
duplicates.  `Date` values are embedded as integer epoch milliseconds.
Fields never read by any claim (option texts, explanations, analytics
counters, timestamps inside history entries) are omitted.
-/

set_option maxRecDepth 4000

namespace QuizApp

/-! ### JS `Map<string, string[]>` as an insertion-ordered association list -/

abbrev AnswerMap := List (String × List String)

/-- JS `Map.get`: value of the (unique) entry for `k`, if present. -/
def mapGet : AnswerMap → String → Option (List String)
  | [], _ => none
  | (k', v') :: rest, k => if k' = k then some v' else mapGet rest k

/-- JS `Map.set`: replace the value of an existing key in place, otherwise
append the new entry at the end (JS `Map` iteration order). -/
def mapSet : AnswerMap → String → List String → AnswerMap
  | [], k, v => [(k, v)]
  | (k', v') :: rest, k, v =>
    if k' = k then (k', v) :: rest else (k', v') :: mapSet rest k v

/-- JS `Map.delete`: remove the entry for `k` (a JS `Map` holds each key at
most once, so removing the first occurrence is exact). -/
def mapDelete : AnswerMap → String → AnswerMap
  | [], _ => []
  | (k', v') :: rest, k =>
    if k' = k then rest else (k', v') :: mapDelete rest k

/-- The keys of the map, in iteration order. -/
def mapKeys (m : AnswerMap) : List String := m.map Prod.fst

/-- A JS `Map` never holds a key twice; association lists built by
`mapSet`/`mapDelete` from the empty map satisfy this. -/
def KeysNodup (m : AnswerMap) : Prop := (mapKeys m).Nodup

/-! ### JS `Set<string>` as an insertion-ordered duplicate-free list -/

abbrev StrSet := List String

/-- JS `Set.add`: no-op when the element is present (keeping its original
position), otherwise append at the end. -/
def setAdd (s : StrSet) (x : String) : StrSet := if x ∈ s then s else s ++ [x]

/-- JS `Set.delete`. -/
def setDelete (s : StrSet) (x : String) : StrSet := s.erase x

/-- JS `Set.has`. -/
def setHas (s : StrSet) (x : String) : Bool := s.contains x

/-- JS array indexing `l[i]` with a possibly negative index: `none` models
the JS result `undefined`. -/
def getInt? (l : List α) (i : Int) : Option α :=
  if i < 0 then none else l.get? i.toNat

/-! ### Data model (`src/lib/types/index.ts`) -/

/-- `Question` (fields read by the scorer and the derived views). -/
structure Question where
  id : String
  number : Nat
  type : String
  text : String
  correctAnswers : List String
deriving Repr, DecidableEq

/-- `Exam` (fields read by the derived views). -/
structure Exam where
  id : String
  title : String
  questionCount : Nat
  questions : List Question
deriving Repr, DecidableEq

/-- `QuizState`: the mutable session record.  `currentQuestionIndex` is an
`Int` because `goToQuestion` stores whatever integer it is handed. -/
structure QuizState where
  examId : String
  mode : String
  currentQuestionIndex : Int
  answers : AnswerMap
  flaggedQuestions : StrSet
  startTime : Int
  endTime : Option Int
  submitted : Bool
  timeElapsed : Option Int
deriving Repr, DecidableEq

/-- `AnswerHistoryEntry` (its `Date` timestamp is inert and omitted). -/
structure AnswerHistoryEntry where
  questionId : String
  previousAnswers : List String
  newAnswers : List String
deriving Repr, DecidableEq

/-- `QuizStateSnapshot`.  `createSnapshot` serialises the state through JSON
(maps and sets to entry arrays, dates to ISO strings) and
`restoreFromSnapshot` rebuilds it; on the embedded value representation that
round trip is the identity, so a snapshot simply carries the state. -/
structure QuizStateSnapshot where
  state : QuizState
deriving Repr, DecidableEq

/-- The store's full private state: the `QuizState` plus the undo/redo
machinery (`answerHistory`, `stateSnapshots`, `currentSnapshotIndex`). -/
structure QuizMachine where
  state : QuizState
  answerHistory : List AnswerHistoryEntry
  stateSnapshots : List QuizStateSnapshot
  currentSnapshotIndex : Int
deriving Repr, DecidableEq

/-- `DEFAULT_CONFIG.maxHistorySize`. -/
def maxHistorySize : Nat := 50

/-- JS `l.slice(-n)`: the last `min n l.length` elements. -/
def takeLast (n : Nat) (l : List α) : List α := l.drop (l.length - n)

/-- `[...history.slice(-config.maxHistorySize + 1), entry]`. -/
def pushCapped (l : List α) (e : α) : List α :=
  takeLast (maxHistorySize - 1) l ++ [e]

/-! ### Session operations (`createQuizStore`, `src/unnamed/part_006`).
`StorageManager.saveQuizState` calls persist a copy of the state and do not
change it; they are treated separately (storage section below). -/

/-- State part of `answerQuestion`: store a non-empty selection, delete the
entry entirely for an empty one. -/
def answerQuestionState (s : QuizState) (questionId : String)
    (selectedAnswers : List String) : QuizState :=
  { s with answers :=
      if selectedAnswers.length > 0 then
        mapSet s.answers questionId selectedAnswers
      else
        mapDelete s.answers questionId }

/-- `answerQuestion`: record a history entry (`previousAnswers` is the stored
value when the key is present — in JS an empty stored array is truthy — and
`[]` otherwise), update the answers, push a snapshot of the new state and
advance the snapshot cursor. -/
def QuizMachine.answerQuestion (m : QuizMachine) (questionId : String)
    (selectedAnswers : List String) : QuizMachine :=
  let previousAnswers := (mapGet m.state.answers questionId).getD []
  let newState := answerQuestionState m.state questionId selectedAnswers
  { state := newState
    answerHistory := pushCapped m.answerHistory
      ⟨questionId, previousAnswers, selectedAnswers⟩
    stateSnapshots := pushCapped m.stateSnapshots ⟨newState⟩
    currentSnapshotIndex := m.currentSnapshotIndex + 1 }

/-- State part of `toggleFlag`. -/
def toggleFlagState (s : QuizState) (questionId : String) : QuizState :=
  { s with flaggedQuestions :=
      if setHas s.flaggedQuestions questionId then
        setDelete s.flaggedQuestions questionId
      else
        setAdd s.flaggedQuestions questionId }

/-- `toggleFlag` (the analytics counter update is omitted). -/
def QuizMachine.toggleFlag (m : QuizMachine) (questionId : String) :
    QuizMachine :=
  { m with state := toggleFlagState m.state questionId }

/-- `goToQuestion`: stores the requested index as is — the source performs no
bounds check on it. -/
def goToQuestionState (s : QuizState) (index : Int) : QuizState :=
  { s with currentQuestionIndex := index }

/-- `goToQuestion` (navigation analytics omitted). -/
def QuizMachine.goToQuestion (m : QuizMachine) (index : Int) : QuizMachine :=
  { m with state := goToQuestionState m.state index }

/-- `nextQuestion`: `Math.min(state.currentQuestionIndex + 1, 999)`. -/
def nextQuestionState (s : QuizState) : QuizState :=
  { s with currentQuestionIndex := min (s.currentQuestionIndex + 1) 999 }

/-- `nextQuestion`. -/
def QuizMachine.nextQuestion (m : QuizMachine) : QuizMachine :=
  { m with state := nextQuestionState m.state }

/-- `previousQuestion`: `Math.max(state.currentQuestionIndex - 1, 0)`. -/
def previousQuestionState (s : QuizState) : QuizState :=
  { s with currentQuestionIndex := max (s.currentQuestionIndex - 1) 0 }

/-- `previousQuestion`. -/
def QuizMachine.previousQuestion (m : QuizMachine) : QuizMachine :=
  { m with state := previousQuestionState m.state }

/-- `undoAnswer`: no-op returning `false` when the history is empty or the
snapshot cursor is at (or below) zero; otherwise restore the last history
entry's previous selection, drop that entry and move the cursor back. -/
def QuizMachine.undoAnswer (m : QuizMachine) : Bool × QuizMachine :=
  if m.answerHistory.length = 0 ∨ m.currentSnapshotIndex ≤ 0 then (false, m)
  else
    match m.answerHistory.getLast? with
    | none => (false, m)
    | some lastEntry =>
      let newAnswers :=
        if lastEntry.previousAnswers.length > 0 then
          mapSet m.state.answers lastEntry.questionId lastEntry.previousAnswers
        else
          mapDelete m.state.answers lastEntry.questionId
      (true,
        { m with
          state := { m.state with answers := newAnswers }
          answerHistory := m.answerHistory.dropLast
          currentSnapshotIndex := max 0 (m.currentSnapshotIndex - 1) })

/-- `redoAnswer`: `false` when the cursor is already at the newest snapshot;
otherwise replay the next snapshot wholesale and advance the cursor.  (The
`none` branch of the lookup is unreachable whenever the cursor is at least
`-1`, which every reachable store state satisfies.) -/
def QuizMachine.redoAnswer (m : QuizMachine) : Bool × QuizMachine :=
  if m.currentSnapshotIndex ≥ (m.stateSnapshots.length : Int) - 1 then
    (false, m)
  else
    match getInt? m.stateSnapshots (m.currentSnapshotIndex + 1) with
    | none => (false, m)
    | some nextSnapshot =>
      (true,
        { m with
          state := nextSnapshot.state
          currentSnapshotIndex := m.currentSnapshotIndex + 1 })

/-- `submit`: stamp the end time, freeze the elapsed time and set
`submitted`.  (Final analytics and the auto-save cancellation are omitted;
the durable record deletion belongs to the storage layer.) -/
def QuizMachine.submit (m : QuizMachine) (now : Int) : QuizMachine :=
  { m with state :=
      { m.state with
        submitted := true
        endTime := some now
        timeElapsed := some (now - m.state.startTime) } }

/-- The fresh-session branch of `init` (no saved unsubmitted state): a new
state, one baseline snapshot, cursor `0`, empty history. -/
def initFresh (examId : String) (mode : String) (now : Int) : QuizMachine :=
  let newState : QuizState :=
    { examId := examId
      mode := mode
      currentQuestionIndex := 0
      answers := []
      flaggedQuestions := []
      startTime := now
      endTime := none
      submitted := false
      timeElapsed := none }
  { state := newState
    answerHistory := []
    stateSnapshots := [⟨newState⟩]
    currentSnapshotIndex := 0 }

/-! ### Scorer (`QuizScorer`, `src/unnamed/part_001`) -/

/-- The JS default string comparison: lexicographic order on the character
sequences (what `array.sort()` uses). -/
def strLeb (a b : String) : Prop := a.data ≤ b.data

instance : DecidableRel strLeb := fun a b =>
  inferInstanceAs (Decidable (a.data ≤ b.data))

instance : IsTotal String strLeb := ⟨fun a b => le_total a.data b.data⟩

instance : IsTrans String strLeb := ⟨fun _ _ _ h1 h2 => le_trans h1 h2⟩

instance : IsAntisymm String strLeb :=
  ⟨fun a b h1 h2 => by
    cases a
    cases b
    exact congrArg String.mk (le_antisymm h1 h2)⟩

/-- JS `array.sort()` on strings: lexicographic ascending order. -/
def sortStr (l : List String) : List String := l.insertionSort strLeb

/-- `sortedUserAnswers.every((answer, index) => answer ===
sortedCorrectAnswers[index])`: indexing past the end of the second array
yields `undefined`, which compares unequal. -/
def everyEqAt : List String → List String → Bool
  | [], _ => true
  | _ :: _, [] => false
  | a :: as, b :: bs => a = b && everyEqAt as bs

namespace QuizScorer

/-- `QuizScorer.isAnswerCorrect`: empty selection is incorrect; otherwise
compare the sorted selection to the sorted correct answers, element by
element after a length check. -/
def isAnswerCorrect (question : Question) (userAnswers : List String) :
    Bool :=
  if userAnswers.length = 0 then false
  else if (sortStr userAnswers).length ≠ (sortStr question.correctAnswers).length
    then false
  else everyEqAt (sortStr userAnswers) (sortStr question.correctAnswers)

/-- The per-question classification performed inside
`QuizScorer.calculateResult`: unanswered (no entry, or an empty stored
selection) counts as skipped, otherwise correct or incorrect by
`isAnswerCorrect`. -/
inductive Bucket where
  | correct
  | incorrect
  | skipped
deriving Repr, DecidableEq

/-- Which counter `calculateResult` increments for `question`. -/
def questionBucket (answers : AnswerMap) (question : Question) : Bucket :=
  let userAnswers := (mapGet answers question.id).getD []
  if userAnswers.length = 0 then .skipped
  else if isAnswerCorrect question userAnswers then .correct
  else .incorrect

/-- `QuestionResult` (fields the claims read). -/
structure QuestionResult where
  questionId : String
  userAnswers : List String
  correctAnswers : List String
  isCorrect : Bool
deriving Repr, DecidableEq

/-- `QuizResult`.  `percentage` is a rational: the JS computation
`correctCount / totalQuestions * 100` is exact for these operands. -/
structure QuizResult where
  examId : String
  examTitle : String
  score : Nat
  percentage : ℚ
  totalQuestions : Nat
  correctAnswers : Nat
  incorrectAnswers : Nat
  skippedAnswers : Nat
  timeElapsed : Int
  questionResults : List QuestionResult
deriving Repr, DecidableEq

/-- `QuizScorer.calculateResult`. -/
def calculateResult (examId examTitle : String) (questions : List Question)
    (answers : AnswerMap) (startTime endTime : Int) : QuizResult :=
  let correctCount :=
    questions.countP (fun q => questionBucket answers q = .correct)
  let incorrectCount :=
    questions.countP (fun q => questionBucket answers q = .incorrect)
  let skippedCount :=
    questions.countP (fun q => questionBucket answers q = .skipped)
  let totalQuestions := questions.length
  { examId := examId
    examTitle := examTitle
    score := correctCount
    percentage :=
      if totalQuestions > 0 then
        (correctCount : ℚ) / (totalQuestions : ℚ) * 100
      else 0
    totalQuestions := totalQuestions
    correctAnswers := correctCount
    incorrectAnswers := incorrectCount
    skippedAnswers := skippedCount
    timeElapsed := endTime - startTime
    questionResults := questions.map (fun q =>
      let userAnswers := (mapGet answers q.id).getD []
      { questionId := q.id
        userAnswers := userAnswers
        correctAnswers := q.correctAnswers
        isCorrect := isAnswerCorrect q userAnswers }) }

end QuizScorer

/-! ### Derived views (`currentQuestion`, `quizProgress`,
`navigationItems`, `src/unnamed/part_006`) -/

/-- The value produced by the `currentQuestion` derived store: a question,
JS `null` (no exam, or index at or past the end) or JS `undefined` (a
negative index slipping past the guard). -/
inductive CurrentQuestionValue where
  | question (q : Question)
  | jsNull
  | jsUndefined
deriving Repr, DecidableEq

/-- The `currentQuestion` derived store. -/
def currentQuestion (exam : Option Exam) (s : QuizState) :
    CurrentQuestionValue :=
  match exam with
  | none => .jsNull
  | some e =>
    if s.currentQuestionIndex ≥ (e.questions.length : Int) then .jsNull
    else
      match getInt? e.questions s.currentQuestionIndex with
      | some q => .question q
      | none => .jsUndefined

/-- The record produced by the `quizProgress` derived store. -/
structure Progress where
  answered : Nat
  total : Nat
  percentage : ℚ
deriving Repr, DecidableEq

/-- The `quizProgress` derived store: `answered` is `answers.size`, the
number of entries of the map. -/
def quizProgress (exam : Option Exam) (s : QuizState) : Progress :=
  match exam with
  | none => ⟨0, 0, 0⟩
  | some e =>
    let total := e.questions.length
    let answered := s.answers.length
    ⟨answered, total,
      if total > 0 then (answered : ℚ) / (total : ℚ) * 100 else 0⟩

/-- `new Set(array)`: insert each element in order, keeping first
occurrences. -/
def jsSetOfList (l : List String) : StrSet := l.foldl setAdd []

/-- The correctness check of the `navigationItems` derived store: compare
the deduplicated selection set and correct-answer set by size and
membership. -/
def navIsCorrect (userAnswers correctAnswers : List String) : Bool :=
  let userAnswersSet := jsSetOfList (sortStr userAnswers)
  let correctAnswersSet := jsSetOfList (sortStr correctAnswers)
  userAnswersSet.length = correctAnswersSet.length &&
    userAnswersSet.all (fun answer => correctAnswersSet.contains answer)

/-! ### Durable storage (`StorageManager`, `src/lib/utils/storage.ts`).
`localStorage` is an association list of string keys and values.  A raw
`setItem` call either succeeds or throws one of the JS errors below,
leaving the storage unchanged; which calls throw is supplied as explicit
fault arguments. -/

abbrev Store := List (String × String)

/-- `localStorage.getItem`. -/
def storeGet : Store → String → Option String
  | [], _ => none
  | (k', v') :: rest, k => if k' = k then some v' else storeGet rest k

/-- A successful `localStorage.setItem`. -/
def storeSet : Store → String → String → Store
  | [], k, v => [(k, v)]
  | (k', v') :: rest, k, v =>
    if k' = k then (k', v) :: rest else (k', v') :: storeSet rest k v

/-- `localStorage.removeItem`. -/
def storeRemove : Store → String → Store
  | [], _ => []
  | (k', v') :: rest, k =>
    if k' = k then rest else (k', v') :: storeRemove rest k

/-- The exception a raw `setItem` may throw. -/
inductive JsError where
  | quotaExceeded
  | privateMode
  | generic
deriving Repr, DecidableEq

/-- `StorageError.type`. -/
inductive StorageErrorType where
  | quota_exceeded
  | corrupted_data
  | network_error
  | permission_denied
deriving Repr, DecidableEq

/-- The error classification in `safeSetItem`'s catch block:
`QuotaExceededError` maps to `quota_exceeded`; a message mentioning
Private mode, and every other failure, map to `permission_denied`. -/
def errorTypeFor : JsError → StorageErrorType
  | .quotaExceeded => .quota_exceeded
  | .privateMode => .permission_denied
  | .generic => .permission_denied

namespace StorageManager

/-- `BACKUP_SUFFIX`. -/
def backupSuffix : String := "_backup"

/-- `MAX_STORAGE_SIZE` (5 MB). -/
def maxStorageSize : Nat := 5 * 1024 * 1024

/-- `getStorageInfo().used`: the total of value length plus key length over
all entries. -/
def storageUsed (s : Store) : Nat :=
  (s.map (fun p => p.2.length + p.1.length)).sum

/-- `createBackup key`: copy the current value (when present and non-empty —
an empty string is falsy in JS) under the backup key; a thrown `setItem` is
caught and leaves the storage unchanged. -/
def createBackup (fault : Option JsError) (s : Store) (key : String) :
    Store :=
  match storeGet s key with
  | none => s
  | some data =>
    if data = "" then s
    else
      match fault with
      | none => storeSet s (key ++ backupSuffix) data
      | some _ => s

/-- `restoreFromBackup key`: when a non-empty backup exists, write it back
under the main key and remove the backup; a thrown `setItem` is caught and
leaves the storage unchanged. -/
def restoreFromBackup (fault : Option JsError) (s : Store) (key : String) :
    Store :=
  match storeGet s (key ++ backupSuffix) with
  | none => s
  | some backup =>
    if backup = "" then s
    else
      match fault with
      | none => storeRemove (storeSet s key backup) (key ++ backupSuffix)
      | some _ => s

/-- `checkAndCleanupStorage`: below the 80% warning threshold it does
nothing and reports success.  At or above it, it emits a `quota_exceeded`
warning and evicts old entries; the eviction (which orders quiz states by
JSON-parsed start times) is abstracted into the `cleanup` argument, whose
boolean is `false` when the source's try-block would throw. -/
def checkAndCleanupStorage (cleanup : Store → Store × Bool) (s : Store) :
    Store × Bool × List StorageErrorType :=
  if 100 * storageUsed s ≥ 80 * maxStorageSize then
    let (s', ok) := cleanup s
    (s', ok, [.quota_exceeded])
  else (s, true, [])

/-- The observable outcome of `safeSetItem`: the storage contents, the
returned boolean, and the `StorageError.type`s emitted, in order. -/
structure SetItemOutcome where
  store : Store
  ret : Bool
  errors : List StorageErrorType
deriving Repr, DecidableEq

/-- `safeSetItem key value`: clean up if needed (aborting with a second
`quota_exceeded` error when the cleanup itself fails), back up the current
value, then attempt the write; on a thrown write, emit the classified
error, restore the backup and return `false`. -/
def safeSetItem (cleanup : Store → Store × Bool)
    (backupFault mainFault restoreFault : Option JsError)
    (s : Store) (key value : String) : SetItemOutcome :=
  let (s1, ok, errs1) := checkAndCleanupStorage cleanup s
  if ok then
    let s2 := createBackup backupFault s1 key
    match mainFault with
    | none => ⟨storeSet s2 key value, true, errs1⟩
    | some e =>
      ⟨restoreFromBackup restoreFault s2 key, false,
        errs1 ++ [errorTypeFor e]⟩
  else ⟨s1, false, errs1 ++ [.quota_exceeded]⟩

end StorageManager

/-! ### Offline retry queue (`createOfflineStore`,
`src/lib/components/QuestionNav.svelte`) -/

/-- `PendingAction` (the `data` payload and timestamp are inert and
omitted).  The type has no status or abandoned field. -/
structure PendingAction where
  id : String
  type : String
  retryCount : Nat
deriving Repr, DecidableEq

/-- The observable state of the offline store: the pending queue, the keys
of the `retryTimeouts` map, the console warnings issued by the
max-retries branch, and the log of timeouts armed with their delays. -/
structure OfflineRetryState where
  pendingActions : List PendingAction
  retryTimeouts : List String
  warned : List String
  armedDelays : List (String × Nat)
deriving Repr, DecidableEq

/-- `Math.min(1000 * Math.pow(2, retryCount), 30000)`. -/
def retryDelay (retryCount : Nat) : Nat :=
  min (1000 * 2 ^ retryCount) 30000

/-- `scheduleRetry action`: at three or more retries, log a warning and
return — the queue, the `retryTimeouts` map and the action itself are left
untouched; otherwise arm a timeout for the backoff delay and record it in
`retryTimeouts`. -/
def scheduleRetry (action : PendingAction) (st : OfflineRetryState) :
    OfflineRetryState :=
  if action.retryCount ≥ 3 then { st with warned := st.warned ++ [action.id] }
  else
    { st with
      armedDelays := st.armedDelays ++ [(action.id, retryDelay action.retryCount)]
      retryTimeouts :=
        if st.retryTimeouts.contains action.id then st.retryTimeouts
        else st.retryTimeouts ++ [action.id] }

/-- The timeout armed by `scheduleRetry` firing with a failed
`processPendingAction`: bump the queued action's retry count and schedule
again with the bumped action.  (On success the action would instead be
removed from the queue and from `retryTimeouts`.) -/
def timeoutFail (action : PendingAction) (st : OfflineRetryState) :
    OfflineRetryState :=
  let st1 :=
    { st with
      pendingActions := st.pendingActions.map (fun a =>
        if a.id = action.id then { a with retryCount := a.retryCount + 1 }
        else a) }
  scheduleRetry { action with retryCount := action.retryCount + 1 } st1

/-- A fresh action of the given id and type failing `n` successive
processing attempts after an initial `scheduleRetry`. -/
def failRun (action : PendingAction) (st : OfflineRetryState) :
    Nat → PendingAction × OfflineRetryState
  | 0 => (action, scheduleRetry action st)
  | n + 1 =>
    let (a, st') := failRun action st n
    ({ a with retryCount := a.retryCount + 1 }, timeoutFail a st')

/-! ### Association-list and store lemmas -/

theorem mapGet_mapSet_self (m : AnswerMap) (k : String) (v : List String) :
    mapGet (mapSet m k v) k = some v := by
  induction m with
  | nil => simp [mapSet, mapGet]
  | cons p rest ih =>
    by_cases h : p.1 = k
    · simp [mapSet, mapGet, h]
    · simp [mapSet, mapGet, h, ih]

theorem mapGet_mapSet_ne (m : AnswerMap) (k k' : String) (v : List String)
    (h : k' ≠ k) : mapGet (mapSet m k v) k' = mapGet m k' := by
  have h' : k ≠ k' := Ne.symm h
  induction m with
  | nil => simp [mapSet, mapGet, h']
  | cons p rest ih =>
    by_cases hp : p.1 = k
    · subst hp
      simp [mapSet, mapGet, h']
    · by_cases hp' : p.1 = k'
      · simp [mapSet, mapGet, hp, hp', h]
      · simp [mapSet, mapGet, hp, hp', ih]

theorem mapGet_mapDelete_ne (m : AnswerMap) (k k' : String) (h : k' ≠ k) :
    mapGet (mapDelete m k) k' = mapGet m k' := by
  have h' : k ≠ k' := Ne.symm h
  induction m with
  | nil => simp [mapDelete]
  | cons p rest ih =>
    by_cases hp : p.1 = k
    · subst hp
      simp [mapDelete, mapGet, h']
    · by_cases hp' : p.1 = k'
      · simp [mapDelete, mapGet, hp, hp', h]
      · simp [mapDelete, mapGet, hp, hp', ih]

theorem mapGet_eq_none_of_not_mem_keys (m : AnswerMap) (k : String)
    (h : k ∉ mapKeys m) : mapGet m k = none := by
  induction m with
  | nil => rfl
  | cons p rest ih =>
    simp only [mapKeys, List.map_cons, List.mem_cons, not_or] at h
    have h1 : p.1 ≠ k := fun hh => h.1 hh.symm
    have h2 : k ∉ mapKeys rest := by simpa [mapKeys] using h.2
    simp [mapGet, h1, ih h2]

theorem mapGet_mapDelete_self (m : AnswerMap) (k : String)
    (h : KeysNodup m) : mapGet (mapDelete m k) k = none := by
  induction m with
  | nil => rfl
  | cons p rest ih =>
    simp only [KeysNodup, mapKeys, List.map_cons, List.nodup_cons] at h
    by_cases hp : p.1 = k
    · subst hp
      have : mapGet rest p.1 = none :=
        mapGet_eq_none_of_not_mem_keys rest p.1 (by simpa [mapKeys] using h.1)
      simpa [mapDelete] using this
    · have hrest : KeysNodup rest := h.2
      simp [mapDelete, hp, mapGet, ih hrest]

theorem mem_mapKeys_mapSet (m : AnswerMap) (k : String) (v : List String)
    (k' : String) :
    k' ∈ mapKeys (mapSet m k v) ↔ k' ∈ mapKeys m ∨ k' = k := by
  induction m with
  | nil => simp [mapSet, mapKeys]
  | cons p rest ih =>
    by_cases hp : p.1 = k
    · subst hp
      rw [show mapSet (p :: rest) p.1 v = (p.1, v) :: rest
        from by simp [mapSet]]
      simp only [mapKeys, List.map_cons, List.mem_cons]
      tauto
    · simp only [mapSet, if_neg hp, mapKeys, List.map_cons, List.mem_cons]
      rw [show List.map Prod.fst (mapSet rest k v) = mapKeys (mapSet rest k v)
        from rfl]
      rw [show List.map Prod.fst rest = mapKeys rest from rfl]
      rw [ih]
      tauto

theorem keysNodup_mapSet (m : AnswerMap) (k : String) (v : List String) :
    KeysNodup m → KeysNodup (mapSet m k v) := by
  unfold KeysNodup
  induction m with
  | nil =>
    intro _
    simp [mapSet, mapKeys]
  | cons p rest ih =>
    intro h
    simp only [mapKeys, List.map_cons, List.nodup_cons] at h
    by_cases hp : p.1 = k
    · subst hp
      rw [show mapSet (p :: rest) p.1 v = (p.1, v) :: rest
        from by simp [mapSet]]
      simp only [mapKeys, List.map_cons, List.nodup_cons]
      exact ⟨h.1, h.2⟩
    · simp only [mapSet, if_neg hp, mapKeys, List.map_cons, List.nodup_cons]
      refine ⟨?_, ih h.2⟩
      intro hmem
      rw [show List.map Prod.fst (mapSet rest k v) = mapKeys (mapSet rest k v)
        from rfl] at hmem
      rcases (mem_mapKeys_mapSet rest k v p.1).1 hmem with h1 | h1
      · exact h.1 (by simpa [mapKeys] using h1)
      · exact hp h1

theorem mapKeys_mapDelete_sublist (m : AnswerMap) (k : String) :
    List.Sublist (mapKeys (mapDelete m k)) (mapKeys m) := by
  induction m with
  | nil => exact List.Sublist.refl _
  | cons p rest ih =>
    by_cases hp : p.1 = k
    · rw [show mapDelete (p :: rest) k = rest from by simp [mapDelete, hp]]
      exact List.Sublist.cons p.1 (List.Sublist.refl _)
    · rw [show mapDelete (p :: rest) k = p :: mapDelete rest k
        from by simp [mapDelete, hp]]
      exact List.Sublist.cons₂ p.1 ih

theorem keysNodup_mapDelete (m : AnswerMap) (k : String)
    (h : KeysNodup m) : KeysNodup (mapDelete m k) := by
  unfold KeysNodup at h ⊢
  exact (mapKeys_mapDelete_sublist m k).nodup h

theorem length_mapDelete (m : AnswerMap) (k : String) :
    (mapDelete m k).length =
      if (mapGet m k).isSome then m.length - 1 else m.length := by
  induction m with
  | nil => simp [mapDelete, mapGet]
  | cons p rest ih =>
    by_cases hp : p.1 = k
    · simp [mapDelete, mapGet, hp]
    · simp only [mapDelete, if_neg hp, mapGet, List.length_cons, ih]
      by_cases hs : (mapGet rest k).isSome
      · have : 1 ≤ rest.length := by
          cases hr : rest with
          | nil => rw [hr] at hs; simp [mapGet] at hs
          | cons q t => simp
        simp [hp, hs]
        omega
      · simp [hp, hs]

theorem storeGet_storeSet_self (s : Store) (k : String) (v : String) :
    storeGet (storeSet s k v) k = some v := by
  induction s with
  | nil => simp [storeSet, storeGet]
  | cons p rest ih =>
    by_cases h : p.1 = k
    · simp [storeSet, storeGet, h]
    · simp [storeSet, storeGet, h, ih]

theorem storeGet_storeSet_ne (s : Store) (k k' : String) (v : String)
    (h : k' ≠ k) : storeGet (storeSet s k v) k' = storeGet s k' := by
  have h' : k ≠ k' := Ne.symm h
  induction s with
  | nil => simp [storeSet, storeGet, h']
  | cons p rest ih =>
    by_cases hp : p.1 = k
    · subst hp
      simp [storeSet, storeGet, h']
    · by_cases hp' : p.1 = k'
      · simp [storeSet, storeGet, hp, hp', h]
      · simp [storeSet, storeGet, hp, hp', ih]

theorem storeGet_storeRemove_ne (s : Store) (k k' : String) (h : k' ≠ k) :
    storeGet (storeRemove s k) k' = storeGet s k' := by
  have h' : k ≠ k' := Ne.symm h
  induction s with
  | nil => simp [storeRemove]
  | cons p rest ih =>
    by_cases hp : p.1 = k
    · subst hp
      simp [storeRemove, storeGet, h']
    · by_cases hp' : p.1 = k'
      · simp [storeRemove, storeGet, hp, hp', h]
      · simp [storeRemove, storeGet, hp, hp', ih]

theorem backupKey_ne (k : String) : k ++ StorageManager.backupSuffix ≠ k := by
  intro h
  have hlen := congrArg String.length h
  rw [String.length_append] at hlen
  have h7 : (StorageManager.backupSuffix).length = 7 := by decide
  omega

/-! ### C1: mutation after submit -/

/-- Overwrite the submitted flag of a machine's state. -/
def QuizMachine.setSubmitted (m : QuizMachine) (b : Bool) : QuizMachine :=
  { m with state := { m.state with submitted := b } }

/-- C1 counterexample.  The claim says a submitted session is frozen: after
`submit()`, `answerQuestion`/`toggleFlag`/`goToQuestion` leave the answer
map, the flagged set and `currentQuestionIndex` unchanged.  On the session
below, `submitted = true`, yet all three calls change the state: none of the
three operations consults the `submitted` flag. -/
theorem C1_counterexample :
    ((initFresh "e1" "exam" 0).submit 5).state.submitted = true ∧
    mapGet ((initFresh "e1" "exam" 0).submit 5).state.answers "q1" = none ∧
    mapGet (((initFresh "e1" "exam" 0).submit 5).answerQuestion "q1"
      ["A"]).state.answers "q1" = some ["A"] ∧
    ((initFresh "e1" "exam" 0).submit 5).state.flaggedQuestions = [] ∧
    (((initFresh "e1" "exam" 0).submit 5).toggleFlag
      "q2").state.flaggedQuestions = ["q2"] ∧
    ((initFresh "e1" "exam" 0).submit 5).state.currentQuestionIndex = 0 ∧
    (((initFresh "e1" "exam" 0).submit 5).goToQuestion
      7).state.currentQuestionIndex = 7 := by
  decide

/-- C1 (amended): `answerQuestion`, `toggleFlag` and `goToQuestion` never
consult the `submitted` flag — each commutes with overwriting that flag, so
a submitted session is mutated exactly like an active one (with `submitted`
itself left `true`).  The claimed freeze of the terminal state does not
exist in the code. -/
theorem C1_ops_ignore_submitted (m : QuizMachine) (b : Bool) (qid : String)
    (sel : List String) (i : Int) :
    ((m.setSubmitted b).answerQuestion qid sel).state =
      { (m.answerQuestion qid sel).state with submitted := b } ∧
    ((m.setSubmitted b).toggleFlag qid).state =
      { (m.toggleFlag qid).state with submitted := b } ∧
    ((m.setSubmitted b).goToQuestion i).state =
      { (m.goToQuestion i).state with submitted := b } ∧
    ((m.setSubmitted b).answerQuestion qid sel).state.submitted = b := by
  refine ⟨rfl, rfl, rfl, rfl⟩

/-! ### C2: navigation bounds -/

/-- A three-question exam used by the navigation counterexample. -/
def examC2 : Exam :=
  ⟨"e2", "demo", 3,
    [⟨"a", 1, "MCQ", "qa", ["A"]⟩, ⟨"b", 2, "MCQ", "qb", ["A"]⟩,
     ⟨"c", 3, "MCQ", "qc", ["A"]⟩]⟩

/-- C2 counterexample.  The claim says out-of-range `goToQuestion` targets
are rejected or clamped into `[0, questionCount)` and that
`nextQuestion`/`previousQuestion` never leave that interval.  On a
three-question exam, `goToQuestion 100` stores index 100, `goToQuestion
(-5)` stores a negative index, and `nextQuestion` from the last question
moves to index 3 = `questionCount` (its only cap is the constant 999). -/
theorem C2_counterexample :
    examC2.questionCount = 3 ∧ examC2.questions.length = 3 ∧
    ((initFresh "e2" "exam" 0).goToQuestion 100).state.currentQuestionIndex
      = 100 ∧
    ((initFresh "e2" "exam" 0).goToQuestion (-5)).state.currentQuestionIndex
      = -5 ∧
    (((initFresh "e2" "exam" 0).goToQuestion 2).nextQuestion).state.currentQuestionIndex = 3 := by
  decide

/-- C2 (amended): `goToQuestion` stores the requested index completely
unclamped; `nextQuestion` clamps only to the constant upper bound 999 (not
to the exam's question count, so it can step past the last question) and
`previousQuestion` clamps only at 0; in particular when the current index is
non-negative both stepping operations keep it non-negative, but nothing
keeps the index below `questionCount`. -/
theorem C2_navigation_clamps (m : QuizMachine) (i : Int) :
    (m.goToQuestion i).state.currentQuestionIndex = i ∧
    m.nextQuestion.state.currentQuestionIndex =
      min (m.state.currentQuestionIndex + 1) 999 ∧
    m.previousQuestion.state.currentQuestionIndex =
      max (m.state.currentQuestionIndex - 1) 0 ∧
    (0 ≤ m.state.currentQuestionIndex →
      0 ≤ m.nextQuestion.state.currentQuestionIndex ∧
      0 ≤ m.previousQuestion.state.currentQuestionIndex) := by
  refine ⟨rfl, rfl, rfl, fun h => ⟨?_, ?_⟩⟩
  · show (0 : Int) ≤ min (m.state.currentQuestionIndex + 1) 999
    omega
  · show (0 : Int) ≤ max (m.state.currentQuestionIndex - 1) 0
    omega

/-- C2 witness: the amended statement instantiated on a concrete machine. -/
theorem C2_navigation_clamps_witness :
    ((initFresh "e2" "exam" 0).goToQuestion 7).state.currentQuestionIndex
      = 7 ∧
    0 ≤ (initFresh "e2" "exam" 0).nextQuestion.state.currentQuestionIndex :=
  ⟨(C2_navigation_clamps (initFresh "e2" "exam" 0) 7).1,
    ((C2_navigation_clamps (initFresh "e2" "exam" 0) 7).2.2.2
      (by decide)).1⟩

/-! ### C10: totality of the `currentQuestion` derived view -/

/-- C10: the `currentQuestion` derivation is total and never indexes out of
bounds: it yields JS `null` whenever no exam is loaded or the index is at or
past the question count, and in the in-range case it yields exactly the
indexed question.  (Being a total Lean function of the embedded state, it
cannot throw.) -/
theorem C10_currentQuestion_total (exam : Option Exam) (s : QuizState) :
    (exam = none → currentQuestion exam s = .jsNull) ∧
    (∀ e : Exam, exam = some e →
      (e.questions.length : Int) ≤ s.currentQuestionIndex →
      currentQuestion exam s = .jsNull) ∧
    (∀ (e : Exam) (q : Question), exam = some e →
      getInt? e.questions s.currentQuestionIndex = some q →
      currentQuestion exam s = .question q) := by
  refine ⟨fun h => by simp [currentQuestion, h], ?_, ?_⟩
  · intro e he hle
    subst he
    simp only [currentQuestion]
    rw [if_pos (by omega)]
  · intro e q he hget
    subst he
    have hneg : ¬s.currentQuestionIndex < 0 := by
      intro hlt
      simp [getInt?, if_pos hlt] at hget
    have hlt : s.currentQuestionIndex.toNat < e.questions.length := by
      have := hget
      simp only [getInt?, if_neg hneg] at this
      exact List.get?_eq_some.mp this |>.1
    simp only [currentQuestion]
    rw [if_neg (by omega), hget]

/-- C10 witness: the theorem applied on concrete inputs — no exam loaded
gives JS null, and an index past the end gives JS null. -/
theorem C10_currentQuestion_total_witness :
    currentQuestion none (initFresh "e" "exam" 0).state = .jsNull ∧
    currentQuestion (some examC2)
      ((initFresh "e2" "exam" 0).goToQuestion 100).state = .jsNull :=
  ⟨(C10_currentQuestion_total none (initFresh "e" "exam" 0).state).1 rfl,
    (C10_currentQuestion_total (some examC2)
      ((initFresh "e2" "exam" 0).goToQuestion 100).state).2.1 examC2 rfl
      (by decide)⟩

/-! ### C9: answering with an empty selection removes the entry -/

/-- C9: `answerQuestion(questionId, [])` removes the entry from the answer
map entirely (rather than storing an empty list): a lookup afterwards finds
nothing, the `quizProgress` answered total drops to the map size without the
entry, and the scorer's classification for that question is `skipped`. -/
theorem C9_empty_selection_unanswers (m : QuizMachine) (qid : String)
    (e : Exam) (q : Question) (hq : q.id = qid)
    (hwf : KeysNodup m.state.answers) :
    mapGet (m.answerQuestion qid []).state.answers qid = none ∧
    (quizProgress (some e) (m.answerQuestion qid []).state).answered =
      (if (mapGet m.state.answers qid).isSome then
        (quizProgress (some e) m.state).answered - 1
      else (quizProgress (some e) m.state).answered) ∧
    QuizScorer.questionBucket (m.answerQuestion qid []).state.answers q =
      .skipped := by
  have hdel : (m.answerQuestion qid []).state.answers =
      mapDelete m.state.answers qid := rfl
  have hnone : mapGet (m.answerQuestion qid []).state.answers qid = none := by
    rw [hdel]
    exact mapGet_mapDelete_self m.state.answers qid hwf
  refine ⟨hnone, ?_, ?_⟩
  · show (mapDelete m.state.answers qid).length = _
    rw [length_mapDelete]
    rfl
  · unfold QuizScorer.questionBucket
    rw [hq, hnone]
    rfl

/-- C9 witness: answering a question and then answering it again with `[]`
leaves it unanswered, uncounted and classified as skipped. -/
theorem C9_empty_selection_unanswers_witness :
    mapGet (((initFresh "e9" "exam" 0).answerQuestion "a" ["A"]).answerQuestion
      "a" []).state.answers "a" = none ∧
    QuizScorer.questionBucket (((initFresh "e9" "exam" 0).answerQuestion "a"
      ["A"]).answerQuestion "a" []).state.answers
      ⟨"a", 1, "MCQ", "qa", ["A"]⟩ = .skipped :=
  ⟨(C9_empty_selection_unanswers ((initFresh "e9" "exam" 0).answerQuestion "a"
      ["A"]) "a" examC2 ⟨"a", 1, "MCQ", "qa", ["A"]⟩ rfl (by unfold KeysNodup mapKeys; decide)).1,
    (C9_empty_selection_unanswers ((initFresh "e9" "exam" 0).answerQuestion "a"
      ["A"]) "a" examC2 ⟨"a", 1, "MCQ", "qa", ["A"]⟩ rfl (by unfold KeysNodup mapKeys; decide)).2.2⟩

/-! ### C8: offline retry backoff and abandonment -/

/-- The action of the abandonment scenario. -/
def c8Action : PendingAction := ⟨"a1", "answer", 0⟩

/-- The offline store with the action enqueued and nothing armed. -/
def c8Start : OfflineRetryState := ⟨[c8Action], [], [], []⟩

/-- C8: the backoff delays are `min(1000 * 2^r, 30000)` — 1s, 2s and 4s for
the first three retries — and after the third failed attempt no further
timeout is armed.  But the source never marks the action abandoned: the
run below shows the final state verbatim — the action is still an ordinary
pending entry (`retryCount = 3`, no distinguishing field exists on
`PendingAction`), its id is still in the `retryTimeouts` map (never removed
on this path), and the only trace of abandonment is a console warning. -/
theorem C8_abandonment_only_warns :
    retryDelay 0 = 1000 ∧ retryDelay 1 = 2000 ∧ retryDelay 2 = 4000 ∧
    retryDelay 5 = 30000 ∧
    (failRun c8Action c8Start 3).2 =
      ⟨[⟨"a1", "answer", 3⟩], ["a1"], ["a1"],
        [("a1", 1000), ("a1", 2000), ("a1", 4000)]⟩ := by
  decide

/-! ### Sorting lemmas for the scorer -/

theorem everyEqAt_iff (l₁ l₂ : List String) (h : l₁.length = l₂.length) :
    everyEqAt l₁ l₂ = true ↔ l₁ = l₂ := by
  induction l₁ generalizing l₂ with
  | nil =>
    cases l₂ with
    | nil => simp [everyEqAt]
    | cons b bs => simp at h
  | cons a as ih =>
    cases l₂ with
    | nil => simp at h
    | cons b bs =>
      simp only [everyEqAt, Bool.and_eq_true, decide_eq_true_eq]
      rw [ih bs (by simpa using h)]
      constructor
      · rintro ⟨ha, hb⟩
        rw [ha, hb]
      · intro hh
        injection hh with ha hb
        exact ⟨ha, hb⟩

theorem sortStr_perm (l : List String) : List.Perm (sortStr l) l :=
  List.perm_insertionSort _ l

theorem sortStr_sorted (l : List String) :
    List.Sorted strLeb (sortStr l) :=
  List.sorted_insertionSort _ l

theorem sortStr_eq_iff (l₁ l₂ : List String) :
    sortStr l₁ = sortStr l₂ ↔ List.Perm l₁ l₂ := by
  constructor
  · intro h
    have h1 : List.Perm (sortStr l₁) (sortStr l₂) := by rw [h]
    exact ((sortStr_perm l₁).symm.trans h1).trans (sortStr_perm l₂)
  · intro h
    exact List.eq_of_perm_of_sorted
      (((sortStr_perm l₁).trans h).trans (sortStr_perm l₂).symm)
      (sortStr_sorted l₁) (sortStr_sorted l₂)

theorem isAnswerCorrect_eq_true_iff (q : Question) (ua : List String) :
    QuizScorer.isAnswerCorrect q ua = true ↔
      ua ≠ [] ∧ sortStr ua = sortStr q.correctAnswers := by
  unfold QuizScorer.isAnswerCorrect
  by_cases h0 : ua.length = 0
  · rw [if_pos h0]
    simp [List.length_eq_zero.mp h0]
  · have hne : ua ≠ [] := by
      intro hh
      subst hh
      simp at h0
    rw [if_neg h0]
    by_cases hlen : (sortStr ua).length = (sortStr q.correctAnswers).length
    · rw [if_neg (by simpa using hlen), everyEqAt_iff _ _ hlen]
      simp [hne]
    · rw [if_pos (by simpa using hlen)]
      constructor
      · intro hh
        simp at hh
      · rintro ⟨-, hs⟩
        exact absurd (congrArg List.length hs) hlen

/-! ### C7: exact set match, no partial credit -/

/-- A single-correct-answer question used by the C7 counterexample. -/
def c7Question : Question := ⟨"q7", 1, "MCQ", "t7", ["B"]⟩

/-- A two-correct-answers question used by the C7 example. -/
def c7QuestionBD : Question := ⟨"q7b", 2, "MCMA", "t7b", ["B", "D"]⟩

/-- C7 counterexample.  The claim says the answer-correctness check returns
true if and only if selection and correct ids are identical as sets.  For
the duplicated selection B,B against correct answers B the two are
identical as sets (same deduplicated elements), yet
`QuizScorer.isAnswerCorrect` compares sorted arrays and answers `false` —
while the `navigationItems` check, which really does compare deduplicated
sets, answers `true` on the same input.  So the claimed equivalence fails
for the scorer (and the two cited checks even disagree). -/
theorem C7_counterexample :
    QuizScorer.isAnswerCorrect c7Question ["B", "B"] = false ∧
    (["B", "B"] : List String).toFinset = c7Question.correctAnswers.toFinset ∧
    navIsCorrect ["B", "B"] c7Question.correctAnswers = true := by
  refine ⟨by decide, ?_, by decide⟩
  decide

/-- C7 (amended): for duplicate-free selections and correct-answer lists
(the shape every real question and every set-backed UI selection has), the
scorer's check returns true exactly when the selection is non-empty and
equals the correct-answer ids as a set — so any strict subset, superset or
differing selection is judged incorrect with no partial credit; on lists
with duplicates the check is strictly finer (sorted-array equality, i.e.
multiset equality). -/
theorem C7_exact_set_match (q : Question) (ua : List String)
    (h1 : ua.Nodup) (h2 : q.correctAnswers.Nodup) :
    QuizScorer.isAnswerCorrect q ua = true ↔
      ua ≠ [] ∧ ua.toFinset = q.correctAnswers.toFinset := by
  rw [isAnswerCorrect_eq_true_iff, sortStr_eq_iff]
  constructor
  · rintro ⟨hne, hp⟩
    refine ⟨hne, ?_⟩
    ext a
    simp only [List.mem_toFinset]
    exact hp.mem_iff
  · rintro ⟨hne, hfs⟩
    refine ⟨hne, ?_⟩
    rw [List.perm_ext_iff_of_nodup h1 h2]
    intro a
    have := Finset.ext_iff.mp hfs a
    simpa [List.mem_toFinset] using this

/-- C7 witness: the amended equivalence applied to the claim's own example
— the selection B,C against correct answers B,D is judged incorrect even
though B is included. -/
theorem C7_exact_set_match_witness :
    (QuizScorer.isAnswerCorrect c7QuestionBD ["B", "C"] = true ↔
      (["B", "C"] : List String) ≠ [] ∧
      (["B", "C"] : List String).toFinset = c7QuestionBD.correctAnswers.toFinset) ∧
    QuizScorer.isAnswerCorrect c7QuestionBD ["B", "C"] = false :=
  ⟨C7_exact_set_match c7QuestionBD ["B", "C"] (by decide) (by decide),
    by decide⟩

/-! ### C5: scorer totals and percentage -/

theorem bucket_partition (answers : AnswerMap) (questions : List Question) :
    questions.countP (fun q => QuizScorer.questionBucket answers q = .correct) +
    questions.countP (fun q => QuizScorer.questionBucket answers q = .incorrect) +
    questions.countP (fun q => QuizScorer.questionBucket answers q = .skipped) =
      questions.length := by
  induction questions with
  | nil => simp
  | cons q qs ih =>
    simp only [List.countP_cons, List.length_cons]
    rcases hb : QuizScorer.questionBucket answers q with _ | _ | _ <;>
      simp [hb] <;> omega

/-- C5: for every exam, answer map and start/end times, the scorer's result
has `correct + incorrect + skipped = totalQuestions` (each question lands in
exactly one bucket, with a missing selection counting as skipped), and the
percentage lies in `[0, 100]` and equals
`correctAnswers / totalQuestions * 100` (0 when there are no questions). -/
theorem C5_score_totals (examId examTitle : String)
    (questions : List Question) (answers : AnswerMap)
    (startTime endTime : Int) :
    (QuizScorer.calculateResult examId examTitle questions answers startTime
        endTime).correctAnswers +
      (QuizScorer.calculateResult examId examTitle questions answers startTime
        endTime).incorrectAnswers +
      (QuizScorer.calculateResult examId examTitle questions answers startTime
        endTime).skippedAnswers =
      (QuizScorer.calculateResult examId examTitle questions answers startTime
        endTime).totalQuestions ∧
    0 ≤ (QuizScorer.calculateResult examId examTitle questions answers
        startTime endTime).percentage ∧
    (QuizScorer.calculateResult examId examTitle questions answers startTime
        endTime).percentage ≤ 100 ∧
    (QuizScorer.calculateResult examId examTitle questions answers startTime
        endTime).percentage =
      (if questions.length = 0 then 0 else
        ((QuizScorer.calculateResult examId examTitle questions answers
          startTime endTime).correctAnswers : ℚ) / (questions.length : ℚ)
          * 100) ∧
    (∀ q ∈ questions, mapGet answers q.id = none →
      QuizScorer.questionBucket answers q = .skipped) := by
  refine ⟨bucket_partition answers questions, ?_, ?_, ?_, ?_⟩
  · show (0 : ℚ) ≤ if questions.length > 0 then _ else 0
    by_cases h : questions.length > 0
    · rw [if_pos h]
      positivity
    · rw [if_neg h]
  · show (if questions.length > 0 then
        ((questions.countP fun q =>
          QuizScorer.questionBucket answers q = .correct : Nat) : ℚ) /
          (questions.length : ℚ) * 100 else 0) ≤ 100
    by_cases h : questions.length > 0
    · rw [if_pos h]
      have hc : (questions.countP fun q =>
          QuizScorer.questionBucket answers q = .correct) ≤ questions.length :=
        List.countP_le_length _
      have hq : ((questions.countP fun q =>
          QuizScorer.questionBucket answers q = .correct : Nat) : ℚ) /
          (questions.length : ℚ) ≤ 1 := by
        rw [div_le_one (by exact_mod_cast h)]
        exact_mod_cast hc
      nlinarith
    · rw [if_neg h]
      norm_num
  · show (if questions.length > 0 then _ else (0 : ℚ)) = _
    by_cases h : questions.length = 0
    · rw [if_neg (by omega), if_pos h]
    · rw [if_pos (by omega), if_neg h]
      rfl
  · intro q _ hnone
    unfold QuizScorer.questionBucket
    rw [hnone]
    rfl

/-- C5 witness: the totals applied to a concrete two-question exam with one
answered question. -/
theorem C5_score_totals_witness :
    (QuizScorer.calculateResult "e5" "t5" [c7Question, c7QuestionBD]
        [("q7", ["B"])] 0 9).correctAnswers +
      (QuizScorer.calculateResult "e5" "t5" [c7Question, c7QuestionBD]
        [("q7", ["B"])] 0 9).incorrectAnswers +
      (QuizScorer.calculateResult "e5" "t5" [c7Question, c7QuestionBD]
        [("q7", ["B"])] 0 9).skippedAnswers =
      (QuizScorer.calculateResult "e5" "t5" [c7Question, c7QuestionBD]
        [("q7", ["B"])] 0 9).totalQuestions ∧
    QuizScorer.questionBucket [("q7", ["B"])] c7QuestionBD = .skipped :=
  ⟨(C5_score_totals "e5" "t5" [c7Question, c7QuestionBD] [("q7", ["B"])]
      0 9).1,
    (C5_score_totals "e5" "t5" [c7Question, c7QuestionBD] [("q7", ["B"])]
      0 9).2.2.2.2 c7QuestionBD (by decide) (by decide)⟩

/-! ### C4: undo/redo round trip -/

/-- The C4 counterexample machine: a fresh session, one answered question,
then a flag toggled.  `toggleFlag` pushes no snapshot, so the newest
snapshot predates the flag. -/
def c4Machine : QuizMachine :=
  ((initFresh "e4" "exam" 0).answerQuestion "q1" ["A"]).toggleFlag "q2"

/-- C4 counterexample.  The claim says a single `undoAnswer` followed by
`redoAnswer` restores the full pre-undo session state — answer map, flagged
set and `currentQuestionIndex` — on every active session.  On `c4Machine`
both calls succeed, yet the flagged set that was `q2` before the undo
comes back empty: `redoAnswer` replays the snapshot taken by the last
`answerQuestion`, and `toggleFlag`/`goToQuestion` push no snapshots, so
changes made after the last snapshot are dropped. -/
theorem C4_counterexample :
    c4Machine.undoAnswer.1 = true ∧
    (c4Machine.undoAnswer.2.redoAnswer).1 = true ∧
    c4Machine.state.flaggedQuestions = ["q2"] ∧
    (c4Machine.undoAnswer.2.redoAnswer).2.state.flaggedQuestions = [] := by
  refine ⟨by decide, by decide, by decide, by decide⟩

/-- C4 (amended): whenever the current state still agrees with the snapshot
under the cursor — true exactly when no `toggleFlag`/`goToQuestion` (nor any
other non-snapshotting mutation) happened since the last snapshot — a
single successful `undoAnswer` followed by `redoAnswer` restores the full
pre-undo state, answer map, flagged set and index included. -/
theorem C4_undo_redo_roundtrip (m : QuizMachine)
    (hh : m.answerHistory ≠ []) (hi : 0 < m.currentSnapshotIndex)
    (hs : getInt? m.stateSnapshots m.currentSnapshotIndex = some ⟨m.state⟩) :
    m.undoAnswer.1 = true ∧
    (m.undoAnswer.2.redoAnswer).1 = true ∧
    (m.undoAnswer.2.redoAnswer).2.state = m.state := by
  have hguard : ¬(m.answerHistory.length = 0 ∨ m.currentSnapshotIndex ≤ 0) := by
    push_neg
    exact ⟨fun h0 => hh (List.length_eq_zero.mp h0), hi⟩
  obtain ⟨e, he⟩ : ∃ e, m.answerHistory.getLast? = some e :=
    Option.ne_none_iff_exists'.mp (fun h0 => hh (List.getLast?_eq_none_iff.mp h0))
  have hnonneg : ¬m.currentSnapshotIndex < 0 := by omega
  have hlt : m.currentSnapshotIndex.toNat < m.stateSnapshots.length := by
    have := hs
    simp only [getInt?, if_neg hnonneg] at this
    exact (List.get?_eq_some.mp this).1
  have hundo : m.undoAnswer =
      (true,
        { m with
          state := { m.state with answers :=
            (if e.previousAnswers.length > 0 then
              mapSet m.state.answers e.questionId e.previousAnswers
            else
              mapDelete m.state.answers e.questionId) }
          answerHistory := m.answerHistory.dropLast
          currentSnapshotIndex := max 0 (m.currentSnapshotIndex - 1) }) := by
    unfold QuizMachine.undoAnswer
    rw [if_neg hguard, he]
  have hmax : max 0 (m.currentSnapshotIndex - 1) =
      m.currentSnapshotIndex - 1 := max_eq_right (by omega)
  have hredoguard :
      ¬(m.currentSnapshotIndex - 1 ≥ (m.stateSnapshots.length : Int) - 1) := by
    omega
  have hget : getInt? m.stateSnapshots (m.currentSnapshotIndex - 1 + 1) =
      some ⟨m.state⟩ := by
    rw [show m.currentSnapshotIndex - 1 + 1 = m.currentSnapshotIndex
      from by omega]
    exact hs
  refine ⟨by rw [hundo], ?_, ?_⟩
  · rw [hundo]
    show (QuizMachine.redoAnswer _).1 = true
    unfold QuizMachine.redoAnswer
    simp only [hmax]
    rw [if_neg hredoguard, hget]
  · rw [hundo]
    show (QuizMachine.redoAnswer _).2.state = m.state
    unfold QuizMachine.redoAnswer
    simp only [hmax]
    rw [if_neg hredoguard, hget]

/-- C4 witness: the round trip applied to a session whose last mutation was
the snapshotting `answerQuestion` itself. -/
theorem C4_undo_redo_roundtrip_witness :
    (((initFresh "e4" "exam" 0).answerQuestion "q1" ["A"]).undoAnswer.2.redoAnswer).2.state =
      ((initFresh "e4" "exam" 0).answerQuestion "q1" ["A"]).state :=
  (C4_undo_redo_roundtrip ((initFresh "e4" "exam" 0).answerQuestion "q1" ["A"])
    (by decide) (by decide) (by decide)).2.2

/-! ### `takeLast` lemmas -/

theorem length_takeLast (n : Nat) (l : List α) :
    (takeLast n l).length = min n l.length := by
  simp only [takeLast, List.length_drop]
  omega

theorem takeLast_all (n : Nat) (l : List α) (h : l.length ≤ n) :
    takeLast n l = l := by
  unfold takeLast
  rw [show l.length - n = 0 from by omega]
  exact List.drop_zero l

theorem takeLast_takeLast (a b : Nat) (l : List α) :
    takeLast a (takeLast b l) = takeLast (min a b) l := by
  unfold takeLast
  rw [List.length_drop, List.drop_drop]
  congr 1
  omega

theorem takeLast_append_one (n : Nat) (l : List α) (x : α) (h : 1 ≤ n) :
    takeLast n (l ++ [x]) = takeLast (n - 1) l ++ [x] := by
  unfold takeLast
  rw [List.length_append, List.length_singleton,
    show l.length + 1 - n = l.length - (n - 1) from by omega,
    List.drop_append_of_le_length (by omega)]

theorem getLast?_takeLast_append (n : Nat) (l : List α) (x : α) (h : 1 ≤ n) :
    (takeLast n (l ++ [x])).getLast? = some x := by
  rw [takeLast_append_one n l x h]
  exact List.getLast?_concat _

theorem dropLast_takeLast_append (n : Nat) (l : List α) (x : α) (h : 1 ≤ n) :
    (takeLast n (l ++ [x])).dropLast = takeLast (n - 1) l := by
  rw [takeLast_append_one n l x h]
  exact List.dropLast_concat ..

/-! ### C3: draining the undo history -/

/-- A sequence of `answerQuestion` calls, applied left to right. -/
def applyAnswers (calls : List (String × List String)) (m : QuizMachine) :
    QuizMachine :=
  match calls with
  | [] => m
  | c :: cs => applyAnswers cs (m.answerQuestion c.1 c.2)

/-- `n` successive `undoAnswer` calls (each is a no-op once it starts
returning `false`). -/
def undoIter : Nat → QuizMachine → QuizMachine
  | 0, m => m
  | n + 1, m => (undoIter n m).undoAnswer.2

/-- The invariant every reachable answer map satisfies: unique keys (it is a
JS `Map`) and no stored empty selection (`answerQuestion` deletes instead of
storing `[]`). -/
def AnswersWF (a : AnswerMap) : Prop :=
  KeysNodup a ∧ ∀ p ∈ a, p.2 ≠ []

theorem mem_mapSet (a : AnswerMap) (k : String) (v : List String)
    (p : String × List String) (h : p ∈ mapSet a k v) : p ∈ a ∨ p.2 = v := by
  induction a with
  | nil =>
    simp only [mapSet, List.mem_singleton] at h
    right
    rw [h]
  | cons q rest ih =>
    by_cases hq : q.1 = k
    · rw [show mapSet (q :: rest) k v = (q.1, v) :: rest
        from by simp [mapSet, hq]] at h
      rcases List.mem_cons.mp h with h1 | h1
      · right
        rw [h1]
      · exact Or.inl (List.mem_cons_of_mem q h1)
    · rw [show mapSet (q :: rest) k v = q :: mapSet rest k v
        from by simp [mapSet, hq]] at h
      rcases List.mem_cons.mp h with h1 | h1
      · exact Or.inl (h1 ▸ List.mem_cons_self q rest)
      · rcases ih h1 with h2 | h2
        · exact Or.inl (List.mem_cons_of_mem q h2)
        · exact Or.inr h2

theorem mem_mapDelete (a : AnswerMap) (k : String)
    (p : String × List String) (h : p ∈ mapDelete a k) : p ∈ a := by
  induction a with
  | nil => simp [mapDelete] at h
  | cons q rest ih =>
    by_cases hq : q.1 = k
    · rw [show mapDelete (q :: rest) k = rest from by simp [mapDelete, hq]] at h
      exact List.mem_cons_of_mem q h
    · rw [show mapDelete (q :: rest) k = q :: mapDelete rest k
        from by simp [mapDelete, hq]] at h
      rcases List.mem_cons.mp h with h1 | h1
      · exact h1 ▸ List.mem_cons_self q rest
      · exact List.mem_cons_of_mem q (ih h1)

theorem answersWF_update (a : AnswerMap) (qid : String) (sel : List String)
    (h : AnswersWF a) :
    AnswersWF (if sel.length > 0 then mapSet a qid sel else mapDelete a qid) := by
  by_cases hs : sel.length > 0
  · rw [if_pos hs]
    refine ⟨keysNodup_mapSet a qid sel h.1, ?_⟩
    intro p hp
    rcases mem_mapSet a qid sel p hp with h1 | h1
    · exact h.2 p h1
    · rw [h1]
      intro hempty
      rw [hempty] at hs
      simp at hs
  · rw [if_neg hs]
    exact ⟨keysNodup_mapDelete a qid h.1,
      fun p hp => h.2 p (mem_mapDelete a qid p hp)⟩

theorem mapGet_some_mem (a : AnswerMap) (k : String) (v : List String)
    (h : mapGet a k = some v) : (k, v) ∈ a := by
  induction a with
  | nil => simp [mapGet] at h
  | cons q rest ih =>
    by_cases hq : q.1 = k
    · rw [show mapGet (q :: rest) k = some q.2 from by simp [mapGet, hq]] at h
      injection h with h
      have : q = (k, v) := by
        cases q
        simp only at hq h
        rw [hq, h]
      exact this ▸ List.mem_cons_self q rest
    · rw [show mapGet (q :: rest) k = mapGet rest k
        from by simp [mapGet, hq]] at h
      exact List.mem_cons_of_mem q (ih h)

/-- Draining lemma: `n` answers followed by `n` undos restores every lookup
of the answer map, provided `n` does not exceed `maxHistorySize` (and the
machine satisfies the reachable-state invariants).  The history ends as the
matching suffix of the original and the snapshot cursor returns to its
starting value. -/
theorem undo_drain (calls : List (String × List String)) :
    ∀ m : QuizMachine, AnswersWF m.state.answers →
      0 ≤ m.currentSnapshotIndex →
      m.answerHistory.length ≤ maxHistorySize →
      calls.length ≤ maxHistorySize →
      (∀ k, mapGet (undoIter calls.length (applyAnswers calls m)).state.answers k
        = mapGet m.state.answers k) ∧
      (undoIter calls.length (applyAnswers calls m)).answerHistory =
        takeLast (min m.answerHistory.length (maxHistorySize - calls.length))
          m.answerHistory ∧
      (undoIter calls.length (applyAnswers calls m)).currentSnapshotIndex =
        m.currentSnapshotIndex ∧
      KeysNodup (undoIter calls.length (applyAnswers calls m)).state.answers := by
  induction calls with
  | nil =>
    intro m hwf hidx hhl _
    refine ⟨fun _ => rfl, ?_, rfl, hwf.1⟩
    show m.answerHistory = takeLast _ m.answerHistory
    rw [show min m.answerHistory.length (maxHistorySize - ([] : List (String × List String)).length)
        = m.answerHistory.length from by
      simp only [List.length_nil, Nat.sub_zero]
      omega]
    rw [takeLast_all _ _ le_rfl]
  | cons c cs ih =>
    intro m hwf hidx hhl hcl
    have hcs49 : cs.length ≤ maxHistorySize - 1 := by
      simp only [List.length_cons] at hcl
      omega
    have hwf' : AnswersWF (m.answerQuestion c.1 c.2).state.answers :=
      answersWF_update m.state.answers c.1 c.2 hwf
    have hidx' : 0 ≤ (m.answerQuestion c.1 c.2).currentSnapshotIndex := by
      show 0 ≤ m.currentSnapshotIndex + 1
      omega
    have hhl' : (m.answerQuestion c.1 c.2).answerHistory.length ≤
        maxHistorySize := by
      show (pushCapped m.answerHistory _).length ≤ maxHistorySize
      rw [pushCapped, List.length_append, List.length_singleton,
        length_takeLast]
      unfold maxHistorySize
      omega
    have hcl' : cs.length ≤ maxHistorySize := by
      unfold maxHistorySize at *
      omega
    obtain ⟨ihget, ihhist, ihidx, ihnodup⟩ :=
      ih (m.answerQuestion c.1 c.2) hwf' hidx' hhl' hcl'
    set R := undoIter cs.length (applyAnswers cs (m.answerQuestion c.1 c.2))
      with hR
    set e : AnswerHistoryEntry :=
      ⟨c.1, (mapGet m.state.answers c.1).getD [], c.2⟩ with he
    have hphist : (m.answerQuestion c.1 c.2).answerHistory =
        takeLast (maxHistorySize - 1) m.answerHistory ++ [e] := rfl
    have hn1 : 1 ≤ min (m.answerQuestion c.1 c.2).answerHistory.length
        (maxHistorySize - cs.length) := by
      rw [hphist, List.length_append, List.length_singleton]
      unfold maxHistorySize at *
      omega
    have hlast : R.answerHistory.getLast? = some e := by
      rw [ihhist, hphist]
      exact getLast?_takeLast_append _ _ _ hn1
    have hlen : R.answerHistory.length ≠ 0 := by
      rw [ihhist, length_takeLast, hphist, List.length_append,
        List.length_singleton]
      unfold maxHistorySize at *
      omega
    have hguard : ¬(R.answerHistory.length = 0 ∨
        R.currentSnapshotIndex ≤ 0) := by
      push_neg
      refine ⟨hlen, ?_⟩
      rw [ihidx]
      show 0 < m.currentSnapshotIndex + 1
      omega
    have hundo : R.undoAnswer =
        (true,
          { R with
            state := { R.state with answers :=
              (if e.previousAnswers.length > 0 then
                mapSet R.state.answers e.questionId e.previousAnswers
              else
                mapDelete R.state.answers e.questionId) }
            answerHistory := R.answerHistory.dropLast
            currentSnapshotIndex := max 0 (R.currentSnapshotIndex - 1) }) := by
      unfold QuizMachine.undoAnswer
      rw [if_neg hguard, hlast]
    have hstep : undoIter (c :: cs).length (applyAnswers (c :: cs) m) =
        R.undoAnswer.2 := rfl
    refine ⟨?_, ?_, ?_, ?_⟩
    · intro k
      rw [hstep, hundo]
      show mapGet (if e.previousAnswers.length > 0 then
          mapSet R.state.answers e.questionId e.previousAnswers
        else mapDelete R.state.answers e.questionId) k =
        mapGet m.state.answers k
      by_cases hk : k = c.1
      · subst hk
        cases hprev : mapGet m.state.answers c.1 with
        | none =>
          have hpe : e.previousAnswers = [] := by
            rw [he]
            show (mapGet m.state.answers c.1).getD [] = []
            rw [hprev]
            rfl
          rw [hpe]
          simp only [List.length_nil, gt_iff_lt, Nat.lt_irrefl, if_false]
          exact mapGet_mapDelete_self R.state.answers c.1 ihnodup
        | some p =>
          have hpe : e.previousAnswers = p := by
            rw [he]
            show (mapGet m.state.answers c.1).getD [] = p
            rw [hprev]
            rfl
          have hpne : p ≠ [] := hwf.2 (c.1, p) (mapGet_some_mem _ _ _ hprev)
          rw [hpe, if_pos (by
            cases hp0 : p with
            | nil => exact absurd hp0 hpne
            | cons x xs => simp)]
          exact mapGet_mapSet_self R.state.answers c.1 p
      · have hk' : k ≠ e.questionId := hk
        have hgetR : mapGet R.state.answers k = mapGet m.state.answers k := by
          rw [ihget k]
          show mapGet (if c.2.length > 0 then mapSet m.state.answers c.1 c.2
            else mapDelete m.state.answers c.1) k = mapGet m.state.answers k
          by_cases hc2 : c.2.length > 0
          · rw [if_pos hc2, mapGet_mapSet_ne _ _ _ _ hk]
          · rw [if_neg hc2, mapGet_mapDelete_ne _ _ _ hk]
        by_cases hpl : e.previousAnswers.length > 0
        · rw [if_pos hpl, mapGet_mapSet_ne _ _ _ _ hk', hgetR]
        · rw [if_neg hpl, mapGet_mapDelete_ne _ _ _ hk', hgetR]
    · rw [hstep, hundo]
      show R.answerHistory.dropLast = _
      have hn1' : 1 ≤ min
          (takeLast (maxHistorySize - 1) m.answerHistory ++ [e]).length
          (maxHistorySize - cs.length) := by
        rw [List.length_append, List.length_singleton]
        unfold maxHistorySize at *
        omega
      rw [ihhist, hphist, dropLast_takeLast_append _ _ _ hn1',
        takeLast_takeLast]
      congr 1
      rw [List.length_append, List.length_singleton, length_takeLast,
        List.length_cons]
      unfold maxHistorySize at *
      omega
    · rw [hstep, hundo]
      show max 0 (R.currentSnapshotIndex - 1) = m.currentSnapshotIndex
      rw [ihidx]
      show max 0 (m.currentSnapshotIndex + 1 - 1) = m.currentSnapshotIndex
      rw [show m.currentSnapshotIndex + 1 - 1 = m.currentSnapshotIndex
        from by omega]
      exact max_eq_right hidx
    · rw [hstep, hundo]
      show KeysNodup (if e.previousAnswers.length > 0 then
          mapSet R.state.answers e.questionId e.previousAnswers
        else mapDelete R.state.answers e.questionId)
      by_cases hpl : e.previousAnswers.length > 0
      · rw [if_pos hpl]
        exact keysNodup_mapSet _ _ _ ihnodup
      · rw [if_neg hpl]
        exact keysNodup_mapDelete _ _ ihnodup

/-- 51 `answerQuestion` calls on 51 distinct question ids. -/
def c3Calls : List (String × List String) :=
  (List.range 51).map (fun i => (String.mk [Char.ofNat (65 + i)], ["a"]))

/-- C3 counterexample.  The claim quantifies over every `n`: `n` answers
followed by `n` undos always restore the original answer map.  With
`maxHistorySize = 50`, the 51st `answerQuestion` evicts the oldest history
entry, so after 51 answers and 51 undos (the 51st is a no-op on empty
history) the first question is still answered although it started
unanswered. -/
theorem C3_counterexample :
    c3Calls.length = 51 ∧
    mapGet (initFresh "e3" "exam" 0).state.answers
      (String.mk [Char.ofNat 65]) = none ∧
    mapGet (undoIter 51 (applyAnswers c3Calls
        (initFresh "e3" "exam" 0))).state.answers
      (String.mk [Char.ofNat 65]) = some ["a"] := by
  refine ⟨by decide, rfl, by decide⟩

/-- C3 (amended): a sequence of `answerQuestion` calls followed by exactly
as many `undoAnswer` calls restores every lookup of the answer map,
provided the sequence has at most `maxHistorySize` (50) calls — beyond
that the capped history evicts the oldest entries and the inverse fails.
The machine hypotheses are the reachable-state invariants: well-formed
answer map (unique keys, no stored empty selection), non-negative snapshot
cursor, and history within the cap. -/
theorem C3_undo_inverse_bounded (calls : List (String × List String))
    (m : QuizMachine) (hwf : AnswersWF m.state.answers)
    (hidx : 0 ≤ m.currentSnapshotIndex)
    (hhl : m.answerHistory.length ≤ maxHistorySize)
    (hcl : calls.length ≤ maxHistorySize) (k : String) :
    mapGet (undoIter calls.length (applyAnswers calls m)).state.answers k =
      mapGet m.state.answers k :=
  (undo_drain calls m hwf hidx hhl hcl).1 k

/-- C3 witness: two answers to the same question, two undos, on a fresh
session. -/
theorem C3_undo_inverse_bounded_witness :
    mapGet (undoIter 2 (applyAnswers [("q1", ["A"]), ("q1", ["B"])]
        (initFresh "e3" "exam" 0))).state.answers "q1" =
      mapGet (initFresh "e3" "exam" 0).state.answers "q1" :=
  C3_undo_inverse_bounded [("q1", ["A"]), ("q1", ["B"])]
    (initFresh "e3" "exam" 0)
    ⟨by unfold KeysNodup mapKeys; decide, by decide⟩
    (by decide) (by decide) (by decide) "q1"

/-! ### C6: durable-store write/read round trip and failure recovery -/

theorem restoreFromBackup_no_backup (rf : Option JsError) (s : Store)
    (key : String)
    (h : storeGet s (key ++ StorageManager.backupSuffix) = none) :
    StorageManager.restoreFromBackup rf s key = s := by
  unfold StorageManager.restoreFromBackup
  rw [h]

/-- The storage contents seen at `key` after the failure path of
`safeSetItem` (backup attempt, failed write, restore attempt), whenever
either no stale backup was lying around or the backup write succeeded on a
non-empty current value. -/
theorem failure_path_get (bf rf : Option JsError) (s : Store) (key : String)
    (hcond : storeGet s (key ++ StorageManager.backupSuffix) = none ∨
      (bf = none ∧ ∃ d, storeGet s key = some d ∧ d ≠ "")) :
    storeGet (StorageManager.restoreFromBackup rf
      (StorageManager.createBackup bf s key) key) key = storeGet s key := by
  have hbkne : key ≠ key ++ StorageManager.backupSuffix :=
    fun h => backupKey_ne key h.symm
  have hcreated : ∀ d, storeGet s key = some d → d ≠ "" → bf = none →
      storeGet (StorageManager.restoreFromBackup rf
        (storeSet s (key ++ StorageManager.backupSuffix) d)
        key) key = storeGet s key := by
    intro d hk hd _
    have hcb : storeGet (storeSet s
        (key ++ StorageManager.backupSuffix) d)
        (key ++ StorageManager.backupSuffix) = some d :=
      storeGet_storeSet_self _ _ _
    cases rf with
    | none =>
      have hres : StorageManager.restoreFromBackup none
          (storeSet s (key ++ StorageManager.backupSuffix) d) key =
          storeRemove
            (storeSet (storeSet s (key ++ StorageManager.backupSuffix) d)
              key d)
            (key ++ StorageManager.backupSuffix) := by
        simp [StorageManager.restoreFromBackup, hcb, hd]
      rw [hres, storeGet_storeRemove_ne _ _ _ hbkne,
        storeGet_storeSet_self, hk]
    | some e1 =>
      have hres : StorageManager.restoreFromBackup (some e1)
          (storeSet s (key ++ StorageManager.backupSuffix) d) key =
          storeSet s (key ++ StorageManager.backupSuffix) d := by
        simp [StorageManager.restoreFromBackup, hcb, hd]
      rw [hres, storeGet_storeSet_ne _ _ _ _ hbkne, hk]
  rcases hcond with hbk | ⟨hbf, d, hk, hd⟩
  · cases hk : storeGet s key with
    | none =>
      have hcb : StorageManager.createBackup bf s key = s := by
        simp [StorageManager.createBackup, hk]
      rw [hcb, restoreFromBackup_no_backup rf s key hbk]
      exact hk
    | some d =>
      by_cases hd : d = ""
      · have hcb : StorageManager.createBackup bf s key = s := by
          simp [StorageManager.createBackup, hk, hd]
        rw [hcb, restoreFromBackup_no_backup rf s key hbk]
        exact hk
      · cases bf with
        | some e0 =>
          have hcb : StorageManager.createBackup (some e0) s key = s := by
            simp [StorageManager.createBackup, hk, hd]
          rw [hcb, restoreFromBackup_no_backup rf s key hbk]
          exact hk
        | none =>
          have hcb : StorageManager.createBackup none s key =
              storeSet s (key ++ StorageManager.backupSuffix) d := by
            simp [StorageManager.createBackup, hk, hd]
          rw [hcb]
          have := hcreated d hk hd rfl
          rw [hk] at this
          exact this
  · subst hbf
    have hcb : StorageManager.createBackup none s key =
        storeSet s (key ++ StorageManager.backupSuffix) d := by
      simp [StorageManager.createBackup, hk, hd]
    rw [hcb]
    exact hcreated d hk hd rfl

/-- C6 counterexample.  The claim says a failed write always leaves a
subsequent read returning the prior stored value.  In the store below the
key holds `v1` but a stale backup `v0` (left behind by an earlier
successful write, whose backup is never cleaned up) is present; the
backup-creation write throws (quota) and then the main write throws, so
`restoreFromBackup` rolls the key back to the stale `v0` — the read after
the failed write returns `v0`, not the prior value `v1`. -/
theorem C6_counterexample :
    storeGet [("k", "v1"), ("k_backup", "v0")] "k" = some "v1" ∧
    (StorageManager.safeSetItem (fun s => (s, true)) (some .quotaExceeded)
      (some .quotaExceeded) none [("k", "v1"), ("k_backup", "v0")] "k"
      "v2").ret = false ∧
    storeGet (StorageManager.safeSetItem (fun s => (s, true))
      (some .quotaExceeded) (some .quotaExceeded) none
      [("k", "v1"), ("k_backup", "v0")] "k" "v2").store "k" = some "v0" := by
  refine ⟨by decide, by decide, by decide⟩

/-- C6 (amended): (write/read round trip) whenever `safeSetItem` returns
`true` — under any cleanup behaviour and any fault pattern — an immediate
read of the key returns exactly the written value.  (Failure recovery)
when the raw write throws (quota or permission) on a store below the
cleanup threshold, `safeSetItem` returns `false`, emits a `StorageError`
of the corresponding type, and a subsequent read returns the prior stored
value — provided no stale backup interferes: either no backup entry
pre-existed for the key, or the backup write itself succeeded on the
non-empty prior value.  (The counterexample shows the stale-backup corner
where the read instead returns the older backed-up value.) -/
theorem C6_write_read_recovery :
    (∀ (cleanup : Store → Store × Bool) (bf mf rf : Option JsError)
        (s : Store) (key value : String),
      (StorageManager.safeSetItem cleanup bf mf rf s key value).ret = true →
      storeGet (StorageManager.safeSetItem cleanup bf mf rf s key
        value).store key = some value) ∧
    (∀ (cleanup : Store → Store × Bool) (bf rf : Option JsError)
        (e : JsError) (s : Store) (key value : String),
      100 * StorageManager.storageUsed s <
        80 * StorageManager.maxStorageSize →
      (storeGet s (key ++ StorageManager.backupSuffix) = none ∨
        (bf = none ∧ ∃ d, storeGet s key = some d ∧ d ≠ "")) →
      (StorageManager.safeSetItem cleanup bf (some e) rf s key
        value).ret = false ∧
      errorTypeFor e ∈
        (StorageManager.safeSetItem cleanup bf (some e) rf s key
          value).errors ∧
      storeGet (StorageManager.safeSetItem cleanup bf (some e) rf s key
        value).store key = storeGet s key) := by
  constructor
  · intro cleanup bf mf rf s key value hret
    unfold StorageManager.safeSetItem StorageManager.checkAndCleanupStorage
      at hret ⊢
    by_cases hth : 100 * StorageManager.storageUsed s ≥
        80 * StorageManager.maxStorageSize
    · rw [if_pos hth] at hret ⊢
      rcases hcs : cleanup s with ⟨s2, ok⟩
      simp only [hcs] at hret ⊢
      cases ok with
      | false => simp at hret
      | true =>
        cases mf with
        | none => exact storeGet_storeSet_self _ _ _
        | some e => simp at hret
    · rw [if_neg hth] at hret ⊢
      cases mf with
      | none => exact storeGet_storeSet_self _ _ _
      | some e => simp at hret
  · intro cleanup bf rf e s key value hth hcond
    unfold StorageManager.safeSetItem StorageManager.checkAndCleanupStorage
    rw [if_neg (by omega)]
    refine ⟨rfl, by simp, ?_⟩
    exact failure_path_get bf rf s key hcond

/-- C6 witness: the round trip on a successful write, and the recovery
conjuncts on a failed write over a backup-free store. -/
theorem C6_write_read_recovery_witness :
    storeGet (StorageManager.safeSetItem (fun s => (s, true)) none none none
      [] "k" "v").store "k" = some "v" ∧
    (StorageManager.safeSetItem (fun s => (s, true)) none
      (some .quotaExceeded) none [("k", "w")] "k" "v").ret = false ∧
    storeGet (StorageManager.safeSetItem (fun s => (s, true)) none
      (some .quotaExceeded) none [("k", "w")] "k" "v").store "k" =
      some "w" :=
  ⟨C6_write_read_recovery.1 (fun s => (s, true)) none none none [] "k" "v"
    (by decide),
   (C6_write_read_recovery.2 (fun s => (s, true)) none none
     JsError.quotaExceeded [("k", "w")] "k" "v" (by decide)
     (Or.inr ⟨rfl, "w", by decide, by decide⟩)).1,
   by
    have := (C6_write_read_recovery.2 (fun s => (s, true)) none none
      JsError.quotaExceeded [("k", "w")] "k" "v" (by decide)
      (Or.inr ⟨rfl, "w", by decide, by decide⟩)).2.2
    rw [this]
    decide⟩

end QuizApp
